import Mathlib

/-!
Verification development for `lazydata/storage/remote.py`: a shallow
embedding of the remote-storage backend (URL parsing, existence checks,
the S3 upload loop and the progress callback) together with theorems
about its behaviour.

String-manipulating helpers from the Python standard library
(`str.split`, `str.strip`, `urllib.parse.urlparse`, `pathlib.PurePosixPath`)
are embedded as executable functions over `List Char`, following the
CPython semantics the source relies on.
-/

/-- `str.split(sep)` over character lists: splitting the empty list yields
one empty field, and consecutive separators yield empty fields. -/
def chSplit (sep : Char) : List Char → List (List Char)
  | [] => [[]]
  | c :: cs =>
    match chSplit sep cs with
    | [] => if c = sep then [[], [c]] else [[c]]
    | a :: as => if c = sep then [] :: a :: as else (c :: a) :: as

/-- `sep.join(...)` over character lists. -/
def chIntercalate (sep : Char) : List (List Char) → List Char
  | [] => []
  | [p] => p
  | p :: ps => p ++ sep :: chIntercalate sep ps

/-- Python `s.startswith(p)`. -/
def strStartsWith (s p : String) : Bool :=
  p.data.isPrefixOf s.data

/-- Python `s.strip()`: remove whitespace from both ends. -/
def pyStrip (s : String) : String :=
  String.mk (((s.data.dropWhile Char.isWhitespace).reverse.dropWhile Char.isWhitespace).reverse)

/-- Python `s[1:]`. -/
def strTail (s : String) : String :=
  String.mk (s.data.drop 1)

/-- Characters after the first `://` of a URL (empty when there is none),
as used by `urllib.parse.urlparse` on `scheme://netloc/path` URLs. -/
def dropThroughSchemeSep : List Char → List Char
  | [] => []
  | ':' :: '/' :: '/' :: rest => rest
  | _ :: rest => dropThroughSchemeSep rest

/-- `urlparse(url).netloc` for absolute URLs of the form
`scheme://netloc/path` (optionally followed by a query or fragment). -/
def urlparseNetloc (url : String) : String :=
  String.mk ((dropThroughSchemeSep url.data).takeWhile
    (fun c => !(c == '/' || c == '?' || c == '#')))

/-- `urlparse(url).path` for absolute URLs of the form
`scheme://netloc/path` (optionally followed by a query or fragment). -/
def urlparsePath (url : String) : String :=
  String.mk (((dropThroughSchemeSep url.data).dropWhile
    (fun c => !(c == '/' || c == '?' || c == '#'))).takeWhile
    (fun c => !(c == '?' || c == '#')))

/-- The root of a POSIX path string, per CPython `pathlib`: `//` for exactly
two leading slashes, `/` for one or three-plus, empty otherwise. -/
def posixRoot (s : String) : String :=
  if strStartsWith s "//" && !(strStartsWith s "///") then "//"
  else if strStartsWith s "/" then "/"
  else ""

/-- The components of a POSIX path string, per CPython `pathlib`: split on
`/`, dropping empty components and `.` components. -/
def posixParts (s : String) : List String :=
  ((chSplit '/' s.data).filter (fun p => !(p.isEmpty || p == ['.']))).map String.mk

/-- `str()` of a parsed `PurePosixPath` (root plus joined components);
the empty relative path prints as `.`. -/
def purePosixPathStr (root : String) (parts : List String) : String :=
  if root = "" && parts.isEmpty then "."
  else root ++ String.mk (chIntercalate '/' (parts.map String.data))

/-- `str(PurePosixPath(a))`. -/
def purePosixPath1 (a : String) : String :=
  purePosixPathStr (posixRoot a) (posixParts a)

/-- `str(PurePosixPath(a, b))`, per CPython `pathlib`: when `b` is anchored
(has a root) it discards `a` entirely; otherwise the components of `a` and
`b` are concatenated under the root of `a`. -/
def purePosixPath2 (a b : String) : String :=
  if posixRoot b = "" then
    purePosixPathStr (posixRoot a) (posixParts a ++ posixParts b)
  else
    purePosixPathStr (posixRoot b) (posixParts b)

/-- A manifest entry of the config file: the code reads only its `hash`
field (`e["hash"]` for `e` in `config.config["files"]`). -/
structure FileEntry where
  hash : String
deriving DecidableEq, Repr

/-- The configuration mapping `config.config` as the code reads it: an
optional `"remote"` key and a `"files"` list whose entries carry a hash. -/
structure Config where
  remote : Option String
  files : List FileEntry
deriving DecidableEq, Repr

/-- The `LocalStorage` collaborator as consumed by `upload`: it maps a hash
to a local cache file path and to a remote-relative path. -/
structure LocalStorage where
  hash_to_file : String → String
  hash_to_remote_path : String → String

/-- The state of an `AWSRemoteStorage` backend handle after `__init__`:
the original URL, the bucket name (URL netloc) and the path prefix
(URL path, stripped, with a single leading slash removed). -/
structure AWSRemoteStorage where
  url : String
  bucket_name : String
  path_prefix : String
deriving DecidableEq, Repr

/-- `AWSRemoteStorage.__init__`: reject URLs that do not start with
`s3://`, otherwise parse bucket name and path prefix from the URL.
A raised `RuntimeError` is modelled as `Except.error` with its message. -/
def AWSRemoteStorage.init (remote_url : String) : Except String AWSRemoteStorage :=
  if !(strStartsWith remote_url "s3://") then
    .error "AWSRemoteStorage URL needs to start with s3://"
  else
    let bucket := urlparseNetloc remote_url
    let pp0 := pyStrip (urlparsePath remote_url)
    let pp := if strStartsWith pp0 "/" then strTail pp0 else pp0
    .ok ⟨remote_url, bucket, pp⟩

/-- `RemoteStorage.get_from_url`: dispatch on the URL scheme; only
`s3://` is supported. -/
def RemoteStorage.get_from_url (remote_url : String) : Except String AWSRemoteStorage :=
  if strStartsWith remote_url "s3://" then AWSRemoteStorage.init remote_url
  else .error ("Url `" ++ remote_url ++ "` is not supported as a remote storage backend")

/-- `RemoteStorage.get_from_config`: delegate to `get_from_url` when the
`"remote"` key is present in the configuration, otherwise fail. -/
def RemoteStorage.get_from_config (config : Config) : Except String AWSRemoteStorage :=
  match Config.remote config with
  | some url => RemoteStorage.get_from_url url
  | none => .error "Remote storage backend not configured for this lazydata project."

/-- Outcome of an S3 head request as observed by the `try`/`except` blocks
of the code: success, a `botocore` `ClientError` carrying an integer error
code, or any other exception (which the code does not catch). -/
inductive HeadOutcome where
  | success : HeadOutcome
  | clientError : Int → HeadOutcome
  | otherError : HeadOutcome
deriving DecidableEq, Repr

/-- The S3 service operations `upload` interacts with, over an abstract
service state `σ`: `head_object` probes a key, `upload_file` transfers a
local file to a key. -/
structure S3Service (σ : Type) where
  head_object : σ → String → HeadOutcome
  upload_file : σ → String → σ

/-- One call to `transfer.upload_file(local_path, bucket_name, s3_key, ...)`
as recorded by the model. -/
structure Transfer where
  local_path : String
  bucket : String
  key : String
deriving DecidableEq, Repr

/-- The S3 key computed for a hash in the body of `upload`:
`str(PurePosixPath(self.path_prefix, local.hash_to_remote_path(sha256)))`. -/
def s3Key (self : AWSRemoteStorage) (localStore : LocalStorage) (sha256 : String) : String :=
  purePosixPath2 ( AWSRemoteStorage.path_prefix self) (localStore.hash_to_remote_path sha256)

/-- The `for sha256 in all_sha256` loop of `AWSRemoteStorage.upload`:
probe each key with `head_object`; on success the entry is skipped
(`exists` stays `True`); on a `ClientError` with code 404 the entry is
uploaded; on a `ClientError` with any other code the exception is caught
and the entry is skipped (`exists` stays `True`); any other exception
propagates and aborts the loop.  Returns the final service state and the
transfers performed, in order. -/
def AWSRemoteStorage.uploadLoop {σ : Type} (svc : S3Service σ) (self : AWSRemoteStorage)
    (localStore : LocalStorage) : List String → σ → Except Unit (σ × List Transfer)
  | [], st => .ok (st, [])
  | sha256 :: rest, st =>
    let local_path := localStore.hash_to_file sha256
    let s3_key := s3Key self localStore sha256
    match svc.head_object st s3_key with
    | .success => AWSRemoteStorage.uploadLoop svc self localStore rest st
    | .clientError code =>
      if code = 404 then
        match AWSRemoteStorage.uploadLoop svc self localStore rest (svc.upload_file st s3_key) with
        | .ok (st1, tr) => .ok (st1, ⟨local_path, self.bucket_name, s3_key⟩ :: tr)
        | .error e => .error e
      else AWSRemoteStorage.uploadLoop svc self localStore rest st
    | .otherError => .error ()

/-- `AWSRemoteStorage.upload`: extract all hashes from the config's file
list and run the upload loop over them. -/
def AWSRemoteStorage.upload {σ : Type} (svc : S3Service σ) (self : AWSRemoteStorage)
    (localStore : LocalStorage) (config : Config) (st : σ) : Except Unit (σ × List Transfer) :=
  AWSRemoteStorage.uploadLoop svc self localStore ((Config.files config).map FileEntry.hash) st

/-- `AWSRemoteStorage.check_storage_exists`: `exists` starts `True`;
a `ClientError` from `head_bucket` sets it to `False` only for code 404
(any other caught code leaves it `True`); an uncaught exception
propagates. -/
def AWSRemoteStorage.check_storage_exists (self : AWSRemoteStorage)
    (head_bucket : String → HeadOutcome) : Except Unit Bool :=
  match head_bucket self.bucket_name with
  | .success => .ok true
  | .clientError code => if code = 404 then .ok false else .ok true
  | .otherError => .error ()

/-- The faithful S3 service: the state is the list of keys present in the
bucket; `head_object` succeeds exactly on present keys and raises a
`ClientError` with code 404 otherwise; `upload_file` makes the key
present. -/
def s3Model : S3Service (List String) where
  head_object := fun st key => if key ∈ st then .success else .clientError 404
  upload_file := fun st key => key :: st

/-- `S3ProgressPercentage.__init__`: store the filename, the file size
(`os.path.getsize(filename)`, supplied here as the environment's answer)
and a zero byte counter.  The field names carry a leading underscore in
the source. -/
structure S3ProgressPercentage where
  filename : String
  size : Int
  seen_so_far : Int
deriving DecidableEq, Repr

/-- `S3ProgressPercentage.__init__`. -/
def S3ProgressPercentage.init (filename : String) (getsize : Int) : S3ProgressPercentage :=
  ⟨filename, getsize, 0⟩

/-- `S3ProgressPercentage.__call__(bytes_amount)`: under the lock, add the
amount to `_seen_so_far`; the percentage computation and `sys.stdout`
write only display state and change nothing else. -/
def S3ProgressPercentage.call (self : S3ProgressPercentage) (bytes_amount : Int) : S3ProgressPercentage :=
  { self with seen_so_far := self.seen_so_far + bytes_amount }

/-- The upload loop specialised to the faithful S3 service `s3Model`,
written as a pure recursion (with `s3Model` no exception can occur):
used to reason about `upload` runs against a bucket state. -/
def s3run (self : AWSRemoteStorage) (localStore : LocalStorage) :
    List String → List String → List String × List Transfer
  | [], st => (st, [])
  | sha256 :: rest, st =>
    let k := s3Key self localStore sha256
    if k ∈ st then s3run self localStore rest st
    else
      let r := s3run self localStore rest (k :: st)
      (r.1, ⟨localStore.hash_to_file sha256, self.bucket_name, k⟩ :: r.2)

/-- A concrete backend handle used to instantiate general theorems. -/
def cSelf : AWSRemoteStorage := ⟨"s3://b", "b", ""⟩

/-- A concrete local store used to instantiate general theorems. -/
def cStore : LocalStorage := ⟨fun h => "/cache/" ++ h, fun h => h⟩

/-- A concrete config with two files. -/
def cConfig : Config := ⟨some "s3://b", [⟨"h1"⟩, ⟨"h2"⟩]⟩

/-- A concrete config whose two entries share a hash. -/
def dConfig : Config := ⟨none, [⟨"h1"⟩, ⟨"h1"⟩]⟩

/-- A service whose probe raises a ClientError with code 403 on key `h1`
and 404 on every other key; uploads do not change its state. -/
def svc403 : S3Service Unit :=
  ⟨fun _ key => if key = "h1" then .clientError 403 else .clientError 404, fun s _ => s⟩

/-- Against the faithful S3 service, the upload loop never raises and
agrees with the pure runner `s3run`. -/
theorem uploadLoop_s3Model_eq (self : AWSRemoteStorage) (localStore : LocalStorage)
    (hs : List String) (st : List String) :
    AWSRemoteStorage.uploadLoop s3Model self localStore hs st = .ok (s3run self localStore hs st) := by
  induction hs generalizing st with
  | nil => rfl
  | cons sha rest ih =>
    by_cases hk : s3Key self localStore sha ∈ st
    · have hh : s3Model.head_object st (s3Key self localStore sha) = .success := by
        simp [s3Model, hk]
      simp [AWSRemoteStorage.uploadLoop, s3run, hh, hk, ih st]
    · have hh : s3Model.head_object st (s3Key self localStore sha) = .clientError 404 := by
        simp [s3Model, hk]
      have hup : s3Model.upload_file st (s3Key self localStore sha) =
          s3Key self localStore sha :: st := rfl
      simp [AWSRemoteStorage.uploadLoop, s3run, hh, hup, hk, ih]

/-- Keys present in the bucket stay present across a run of `s3run`. -/
theorem s3run_mono (self : AWSRemoteStorage) (localStore : LocalStorage)
    (hs : List String) (st : List String) (k : String) (hk : k ∈ st) :
    k ∈ (s3run self localStore hs st).1 := by
  induction hs generalizing st with
  | nil => simpa [s3run] using hk
  | cons sha rest ih =>
    by_cases h : s3Key self localStore sha ∈ st
    · simpa [s3run, h] using ih st hk
    · simpa [s3run, h] using ih (s3Key self localStore sha :: st) (List.mem_cons_of_mem _ hk)

/-- After a run of `s3run`, the key of every processed hash is present. -/
theorem s3run_covers (self : AWSRemoteStorage) (localStore : LocalStorage)
    (hs : List String) (st : List String) (sha : String) (hsha : sha ∈ hs) :
    s3Key self localStore sha ∈ (s3run self localStore hs st).1 := by
  induction hs generalizing st with
  | nil => cases hsha
  | cons sha0 rest ih =>
    by_cases h : s3Key self localStore sha0 ∈ st
    · rcases List.mem_cons.mp hsha with heq | hmem
      · subst heq
        simpa [s3run, h] using s3run_mono self localStore rest st _ h
      · simpa [s3run, h] using ih st hmem
    · rcases List.mem_cons.mp hsha with heq | hmem
      · subst heq
        simpa [s3run, h] using
          s3run_mono self localStore rest (s3Key self localStore sha :: st) _ (List.mem_cons_self _ _)
      · simpa [s3run, h] using ih (s3Key self localStore sha0 :: st) hmem

/-- When every processed hash's key is already present, `s3run` performs
no transfer and leaves the bucket unchanged. -/
theorem s3run_skip_all (self : AWSRemoteStorage) (localStore : LocalStorage)
    (hs : List String) (st : List String)
    (h : ∀ sha ∈ hs, s3Key self localStore sha ∈ st) :
    s3run self localStore hs st = (st, []) := by
  induction hs with
  | nil => rfl
  | cons sha rest ih =>
    have hk : s3Key self localStore sha ∈ st := h sha (List.mem_cons_self _ _)
    simpa [s3run, hk] using ih (fun x hx => h x (List.mem_cons_of_mem _ hx))

/-- A key already present in the bucket is never the target of a transfer
in a run of `s3run`. -/
theorem s3run_no_transfer_of_mem (self : AWSRemoteStorage) (localStore : LocalStorage)
    (hs : List String) (st : List String) (k : String) (hk : k ∈ st) :
    ∀ t ∈ (s3run self localStore hs st).2, Transfer.key t ≠ k := by
  induction hs generalizing st with
  | nil => simp [s3run]
  | cons sha rest ih =>
    by_cases h : s3Key self localStore sha ∈ st
    · simpa [s3run, h] using ih st hk
    · intro t ht
      simp only [s3run, h, if_false, List.mem_cons] at ht
      rcases ht with heq | ht
      · subst heq
        intro hEq
        simp only [Transfer.key] at hEq
        exact h (hEq ▸ hk)
      · exact ih (s3Key self localStore sha :: st) (List.mem_cons_of_mem _ hk) t ht

/-- In a single run of `s3run` every key is the target of at most one
transfer. -/
theorem s3run_countP_le_one (self : AWSRemoteStorage) (localStore : LocalStorage)
    (hs : List String) (st : List String) (k : String) :
    List.countP (fun t => Transfer.key t == k) (s3run self localStore hs st).2 ≤ 1 := by
  induction hs generalizing st with
  | nil => simp [s3run]
  | cons sha rest ih =>
    by_cases h : s3Key self localStore sha ∈ st
    · simpa [s3run, h] using ih st
    · by_cases hkey : s3Key self localStore sha = k
      · subst hkey
        have h0 : List.countP (fun t => Transfer.key t == s3Key self localStore sha)
            (s3run self localStore rest (s3Key self localStore sha :: st)).2 = 0 := by
          refine List.countP_eq_zero.mpr (fun t ht => ?_)
          have := s3run_no_transfer_of_mem self localStore rest
            (s3Key self localStore sha :: st) (s3Key self localStore sha)
            (List.mem_cons_self _ _) t ht
          simpa using this
        simp [s3run, h, List.countP_cons, h0]
      · have hle := ih (s3Key self localStore sha :: st)
        simp only [s3run, h, if_false, List.countP_cons]
        simpa [hkey] using hle

/-- C1 (counterexample): in `AWSRemoteStorage.upload`, a per-object probe
that fails with ClientError 403 on the first entry does NOT abort the
sync: the run completes normally (`.ok`) and the entry after the failing
one is still transferred, contradicting "the whole sync aborts with a
fatal error and zero transfers occur for any entry". -/
theorem claim_C1_counterexample :
    svc403.head_object () (s3Key cSelf cStore "h1") = .clientError 403 ∧
    AWSRemoteStorage.upload svc403 cSelf cStore cConfig () =
      .ok ((), [⟨"/cache/h2", "b", "h2"⟩]) :=
  ⟨rfl, rfl⟩

/-- C1 (amended): in `AWSRemoteStorage.upload`, a per-object probe that
fails with a ClientError whose code is not 404 is caught and the entry is
silently skipped (`exists` stays `True`, no transfer), and the sync
continues with the remaining entries exactly as if the entry were
present; only a probe failure that is not a ClientError propagates and
aborts the loop. -/
theorem claim_C1 {σ : Type} (svc : S3Service σ) (self : AWSRemoteStorage)
    (localStore : LocalStorage) (sha256 : String) (rest : List String) (st : σ) :
    (∀ code : Int, code ≠ 404 →
      svc.head_object st (s3Key self localStore sha256) = .clientError code →
      AWSRemoteStorage.uploadLoop svc self localStore (sha256 :: rest) st =
        AWSRemoteStorage.uploadLoop svc self localStore rest st) ∧
    (svc.head_object st (s3Key self localStore sha256) = .otherError →
      AWSRemoteStorage.uploadLoop svc self localStore (sha256 :: rest) st = .error ()) := by
  constructor
  · intro code hc hh
    simp only [AWSRemoteStorage.uploadLoop, hh, if_neg hc]
  · intro hh
    simp only [AWSRemoteStorage.uploadLoop, hh]

/-- Witness for C1 (amended): with a 403 probe on the first entry's key,
processing that entry is the same as not processing it at all. -/
theorem claim_C1_witness :
    AWSRemoteStorage.uploadLoop svc403 cSelf cStore ["h1", "h2"] () =
      AWSRemoteStorage.uploadLoop svc403 cSelf cStore ["h2"] () :=
  (claim_C1 svc403 cSelf cStore "h1" ["h2"] ()).1 403 (by decide) rfl

/-- C2: for an entry of the upload loop, a head-object probe failing with
ClientError 404 leads to exactly that entry's local file being
transferred to its key (and the loop continuing on the post-transfer
service state), while a successful probe leads to no transfer for that
entry. -/
theorem claim_C2 {σ : Type} (svc : S3Service σ) (self : AWSRemoteStorage)
    (localStore : LocalStorage) (sha256 : String) (rest : List String) (st : σ) :
    (svc.head_object st (s3Key self localStore sha256) = .clientError 404 →
      AWSRemoteStorage.uploadLoop svc self localStore (sha256 :: rest) st =
        Except.map (fun r => (r.1,
            ⟨localStore.hash_to_file sha256, self.bucket_name, s3Key self localStore sha256⟩ :: r.2))
          (AWSRemoteStorage.uploadLoop svc self localStore rest
            (svc.upload_file st (s3Key self localStore sha256)))) ∧
    (svc.head_object st (s3Key self localStore sha256) = .success →
      AWSRemoteStorage.uploadLoop svc self localStore (sha256 :: rest) st =
        AWSRemoteStorage.uploadLoop svc self localStore rest st) := by
  constructor
  · intro hh
    simp only [AWSRemoteStorage.uploadLoop, hh, if_pos rfl]
    cases AWSRemoteStorage.uploadLoop svc self localStore rest
        (svc.upload_file st (s3Key self localStore sha256)) with
    | ok r => cases r; rfl
    | error e => rfl
  · intro hh
    simp only [AWSRemoteStorage.uploadLoop, hh]

/-- Witness for C2: on an empty bucket the probe for `h1` fails with 404
and that entry is transferred. -/
theorem claim_C2_witness :
    AWSRemoteStorage.uploadLoop s3Model cSelf cStore ["h1"] [] =
      Except.map (fun r => (r.1,
          ⟨cStore.hash_to_file "h1", cSelf.bucket_name, s3Key cSelf cStore "h1"⟩ :: r.2))
        (AWSRemoteStorage.uploadLoop s3Model cSelf cStore []
          (s3Model.upload_file [] (s3Key cSelf cStore "h1"))) :=
  (claim_C2 s3Model cSelf cStore "h1" [] []).1 rfl

/-- C5 (counterexample): a bucket-level head request failing with
ClientError 403 does not propagate: `check_storage_exists` swallows it
and returns the boolean `true`. -/
theorem claim_C5_counterexample :
    AWSRemoteStorage.check_storage_exists cSelf (fun _ => .clientError 403) = .ok true :=
  rfl

/-- C5 (amended): `check_storage_exists` returns `false` exactly when the
bucket-level head request fails with ClientError code 404; a ClientError
with any other code is caught and `true` is returned; only a failure that
is not a ClientError propagates to the caller. -/
theorem claim_C5 (self : AWSRemoteStorage) (head_bucket : String → HeadOutcome) :
    (AWSRemoteStorage.check_storage_exists self head_bucket = .ok false ↔
      head_bucket self.bucket_name = .clientError 404) ∧
    (AWSRemoteStorage.check_storage_exists self head_bucket = .error () ↔
      head_bucket self.bucket_name = .otherError) := by
  cases hh : head_bucket self.bucket_name with
  | success => simp [AWSRemoteStorage.check_storage_exists, hh]
  | clientError code =>
    by_cases hc : code = 404 <;>
      simp [AWSRemoteStorage.check_storage_exists, hh, hc]
  | otherError => simp [AWSRemoteStorage.check_storage_exists, hh]

/-- C6: `get_from_url` on `s3://mybucket/prefix` yields a handle with
bucket name `mybucket` and path prefix `prefix` (netloc as bucket, path
stripped of whitespace and its leading slash), and on every URL not
starting with `s3://` it fails with the unsupported-scheme error. -/
theorem claim_C6 :
    RemoteStorage.get_from_url "s3://mybucket/prefix" =
      .ok ⟨"s3://mybucket/prefix", "mybucket", "prefix"⟩ ∧
    ∀ url : String, strStartsWith url "s3://" = false →
      RemoteStorage.get_from_url url =
        .error ("Url `" ++ url ++ "` is not supported as a remote storage backend") := by
  refine ⟨rfl, ?_⟩
  intro url hurl
  simp [RemoteStorage.get_from_url, hurl]

/-- Witness for C6: `ftp://x` is rejected with the unsupported-scheme
error. -/
theorem claim_C6_witness :
    RemoteStorage.get_from_url "ftp://x" =
      .error ("Url `" ++ "ftp://x" ++ "` is not supported as a remote storage backend") :=
  claim_C6.2 "ftp://x" rfl

/-- C8: `get_from_config` fails with the not-configured error exactly
when the configuration lacks the `remote` field, and otherwise delegates
the configured URL to `get_from_url`. -/
theorem claim_C8 (config : Config) :
    (Config.remote config = none →
      RemoteStorage.get_from_config config =
        .error "Remote storage backend not configured for this lazydata project.") ∧
    (∀ url : String, Config.remote config = some url →
      RemoteStorage.get_from_config config = RemoteStorage.get_from_url url) := by
  constructor
  · intro h
    simp [RemoteStorage.get_from_config, h]
  · intro url h
    simp [RemoteStorage.get_from_config, h]

/-- Witness for C8: a config without a remote URL fails with the
not-configured error, and `cConfig` delegates its URL. -/
theorem claim_C8_witness :
    RemoteStorage.get_from_config ⟨none, []⟩ =
      .error "Remote storage backend not configured for this lazydata project." :=
  (claim_C8 ⟨none, []⟩).1 rfl

/-- C3: running `upload` against the faithful S3 service a second time,
from the remote state the first run left, performs zero transfers and
leaves that state unchanged. -/
theorem claim_C3 (self : AWSRemoteStorage) (localStore : LocalStorage)
    (config : Config) (st st1 : List String) (tr1 : List Transfer)
    (h : AWSRemoteStorage.upload s3Model self localStore config st = .ok (st1, tr1)) :
    AWSRemoteStorage.upload s3Model self localStore config st1 = .ok (st1, []) := by
  simp only [AWSRemoteStorage.upload] at h ⊢
  rw [uploadLoop_s3Model_eq] at h
  have hpair : s3run self localStore ((Config.files config).map FileEntry.hash) st = (st1, tr1) := by
    injection h
  rw [uploadLoop_s3Model_eq, s3run_skip_all]
  intro sha hsha
  have hc := s3run_covers self localStore ((Config.files config).map FileEntry.hash) st sha hsha
  rw [hpair] at hc
  exact hc

/-- Witness for C3: re-running the two-entry upload from the state the
first run produced transfers nothing. -/
theorem claim_C3_witness :
    AWSRemoteStorage.upload s3Model cSelf cStore cConfig ["h2", "h1"] = .ok (["h2", "h1"], []) :=
  claim_C3 cSelf cStore cConfig [] ["h2", "h1"]
    [⟨"/cache/h1", "b", "h1"⟩, ⟨"/cache/h2", "b", "h2"⟩] rfl

/-- C4: two manifest entries sharing a content hash resolve to the same
S3 key, and a single run of `upload` against the faithful S3 service
performs at most one transfer for that key. -/
theorem claim_C4 (self : AWSRemoteStorage) (localStore : LocalStorage)
    (config : Config) (st : List String) (e1 e2 : FileEntry)
    (h1 : e1 ∈ Config.files config) (h2 : e2 ∈ Config.files config)
    (hh : FileEntry.hash e1 = FileEntry.hash e2) :
    s3Key self localStore (FileEntry.hash e1) = s3Key self localStore (FileEntry.hash e2) ∧
    ∀ st1 tr, AWSRemoteStorage.upload s3Model self localStore config st = .ok (st1, tr) →
      List.countP (fun t => Transfer.key t == s3Key self localStore (FileEntry.hash e1)) tr ≤ 1 := by
  refine ⟨by rw [hh], ?_⟩
  intro st1 tr hrun
  simp only [AWSRemoteStorage.upload] at hrun
  rw [uploadLoop_s3Model_eq] at hrun
  have hpair : s3run self localStore ((Config.files config).map FileEntry.hash) st = (st1, tr) := by
    injection hrun
  have hcount := s3run_countP_le_one self localStore
    ((Config.files config).map FileEntry.hash) st (s3Key self localStore (FileEntry.hash e1))
  rw [hpair] at hcount
  exact hcount

/-- Witness for C4: uploading a config whose two entries share hash `h1`
transfers to key `h1` at most once. -/
theorem claim_C4_witness :
    List.countP (fun t => Transfer.key t == s3Key cSelf cStore (FileEntry.hash ⟨"h1"⟩))
      [⟨"/cache/h1", "b", "h1"⟩] ≤ 1 :=
  (claim_C4 cSelf cStore dConfig [] ⟨"h1"⟩ ⟨"h1"⟩ (by decide) (by decide) rfl).2
    ["h1"] [⟨"/cache/h1", "b", "h1"⟩] rfl

/-- Every transfer performed by the upload loop targets the S3 key of one
of the processed hashes. -/
theorem uploadLoop_transfer_keys {σ : Type} (svc : S3Service σ) (self : AWSRemoteStorage)
    (localStore : LocalStorage) (hs : List String) :
    ∀ (st st1 : σ) (tr : List Transfer),
      AWSRemoteStorage.uploadLoop svc self localStore hs st = .ok (st1, tr) →
      ∀ t ∈ tr, ∃ sha ∈ hs, Transfer.key t = s3Key self localStore sha := by
  induction hs with
  | nil =>
    intro st st1 tr h t ht
    simp only [AWSRemoteStorage.uploadLoop, Except.ok.injEq, Prod.mk.injEq] at h
    rw [← h.2] at ht
    cases ht
  | cons sha rest ih =>
    intro st st1 tr h t ht
    simp only [AWSRemoteStorage.uploadLoop] at h
    cases hho : svc.head_object st (s3Key self localStore sha) with
    | success =>
      simp only [hho] at h
      obtain ⟨sha1, hm, hk⟩ := ih st st1 tr h t ht
      exact ⟨sha1, List.mem_cons_of_mem _ hm, hk⟩
    | clientError code =>
      simp only [hho] at h
      by_cases hc : code = 404
      · rw [if_pos hc] at h
        cases hrec : AWSRemoteStorage.uploadLoop svc self localStore rest
            (svc.upload_file st (s3Key self localStore sha)) with
        | ok r =>
          obtain ⟨a, b⟩ := r
          simp only [hrec, Except.ok.injEq, Prod.mk.injEq] at h
          rw [← h.2] at ht
          rcases List.mem_cons.mp ht with heq | hmem
          · subst heq
            exact ⟨sha, List.mem_cons_self _ _, rfl⟩
          · obtain ⟨sha1, hm, hk⟩ :=
              ih (svc.upload_file st (s3Key self localStore sha)) a b hrec t hmem
            exact ⟨sha1, List.mem_cons_of_mem _ hm, hk⟩
        | error e =>
          simp only [hrec] at h
          exact Except.noConfusion h
      · rw [if_neg hc] at h
        obtain ⟨sha1, hm, hk⟩ := ih st st1 tr h t ht
        exact ⟨sha1, List.mem_cons_of_mem _ hm, hk⟩
    | otherError =>
      simp only [hho] at h
      exact Except.noConfusion h

/-- C7: every transfer performed by `upload` targets the POSIX-style join
of the handle's path prefix with the store's remote-relative path for one
of the manifest entries, and on prefix `data/v1/` with relative path
`ab/cd1234.bin` that join is exactly `data/v1/ab/cd1234.bin`. -/
theorem claim_C7 {σ : Type} (svc : S3Service σ) (self : AWSRemoteStorage)
    (localStore : LocalStorage) (config : Config) (st st1 : σ) (tr : List Transfer)
    (h : AWSRemoteStorage.upload svc self localStore config st = .ok (st1, tr)) :
    (∀ t ∈ tr, ∃ e ∈ Config.files config, Transfer.key t =
      purePosixPath2 ( AWSRemoteStorage.path_prefix self)
        (localStore.hash_to_remote_path (FileEntry.hash e))) ∧
    purePosixPath2 "data/v1/" "ab/cd1234.bin" = "data/v1/ab/cd1234.bin" := by
  refine ⟨?_, by decide⟩
  intro t ht
  simp only [AWSRemoteStorage.upload] at h
  obtain ⟨sha, hm, hk⟩ := uploadLoop_transfer_keys svc self localStore _ st st1 tr h t ht
  obtain ⟨e, he, rfl⟩ := List.mem_map.mp hm
  exact ⟨e, he, hk⟩

/-- Witness for C7, at a concrete two-entry run on an empty bucket. -/
theorem claim_C7_witness :
    purePosixPath2 "data/v1/" "ab/cd1234.bin" = "data/v1/ab/cd1234.bin" :=
  (claim_C7 s3Model cSelf cStore cConfig [] ["h2", "h1"]
    [⟨"/cache/h1", "b", "h1"⟩, ⟨"/cache/h2", "b", "h2"⟩] rfl).2

/-- C9: when the remote-relative path starts with `/`, the PurePosixPath
join discards the path prefix entirely: the result is the same as parsing
the relative path alone, so the key is not `{path_prefix}/{relative}`
(shown on the concrete pair `data/v1` and `/abs/file.bin`). -/
theorem claim_C9 (p r : String) (h : strStartsWith r "/" = true) :
    purePosixPath2 p r = purePosixPath1 r ∧
    purePosixPath2 "data/v1" "/abs/file.bin" = "/abs/file.bin" ∧
    purePosixPath2 "data/v1" "/abs/file.bin" ≠ "data/v1/abs/file.bin" := by
  refine ⟨?_, by decide, by decide⟩
  have hroot : posixRoot r ≠ "" := by
    unfold posixRoot
    by_cases h1 : (strStartsWith r "//" && !(strStartsWith r "///")) = true
    · rw [if_pos h1]
      decide
    · rw [if_neg h1, if_pos h]
      decide
  simp only [purePosixPath2, purePosixPath1]
  rw [if_neg hroot]

/-- Witness for C9, at the anchored relative path `/y`. -/
theorem claim_C9_witness :
    purePosixPath2 "x" "/y" = purePosixPath1 "/y" ∧
    purePosixPath2 "data/v1" "/abs/file.bin" = "/abs/file.bin" ∧
    purePosixPath2 "data/v1" "/abs/file.bin" ≠ "data/v1/abs/file.bin" :=
  claim_C9 "x" "/y" rfl

/-- The progress callback folded over a byte-amount sequence only adds to
the byte counter: filename and size are untouched. -/
theorem foldl_call_spec (p0 : S3ProgressPercentage) (amounts : List Int) :
    List.foldl S3ProgressPercentage.call p0 amounts =
      ⟨p0.filename, p0.size, p0.seen_so_far + amounts.sum⟩ := by
  induction amounts generalizing p0 with
  | nil => simp
  | cons a as ih =>
    rw [List.foldl_cons, ih]
    simp [S3ProgressPercentage.call, add_assoc]

/-- C10: after calling the progress callback with amounts `a_1..a_n`, the
accumulated counter equals its initial value plus their sum, the filename
and size fields are unchanged, and for non-negative amounts the counter
never decreases. -/
theorem claim_C10 (p0 : S3ProgressPercentage) (amounts : List Int) :
    (List.foldl S3ProgressPercentage.call p0 amounts).seen_so_far =
      p0.seen_so_far + amounts.sum ∧
    (List.foldl S3ProgressPercentage.call p0 amounts).filename = p0.filename ∧
    (List.foldl S3ProgressPercentage.call p0 amounts).size = p0.size ∧
    ((∀ a ∈ amounts, 0 ≤ a) →
      p0.seen_so_far ≤ (List.foldl S3ProgressPercentage.call p0 amounts).seen_so_far) := by
  rw [foldl_call_spec]
  refine ⟨rfl, rfl, rfl, ?_⟩
  intro hpos
  have hsum : 0 ≤ amounts.sum := List.sum_nonneg hpos
  show p0.seen_so_far ≤ p0.seen_so_far + amounts.sum
  omega

/-- Witness for C10, on the amounts `[1, 2]` from a fresh callback. -/
theorem claim_C10_witness :
    (S3ProgressPercentage.init "f" 10).seen_so_far ≤
      (List.foldl S3ProgressPercentage.call (S3ProgressPercentage.init "f" 10) [1, 2]).seen_so_far :=
  (claim_C10 (S3ProgressPercentage.init "f" 10) [1, 2]).2.2.2 (by decide)

